import Mathlib

/-!
Shallow embedding of the ODP bootstrap engine of the `bootstrap_animation`
repository (files `bootstrap_engine.py` — the live engine imported by
`app.py` — and `bootstrap_engine_old.py` — the legacy manual engine).

Numbers are modelled by `ℚ`.  `np.sqrt` is modelled by an oracle
`SqrtOracle`: an arbitrary function that is nonnegative, positive on
positive inputs and zero on nonpositive inputs (the zero-on-nonpositive
convention, combined with Lean's `x / 0 = 0`, reproduces exactly the
effect of the source's `np.nan_to_num(..., nan=0.0, posinf=0.0,
neginf=0.0)` post-processing of the residual arrays: a cell whose float
residual is non-finite holds 0 after that call).  All theorems quantify
over the oracle, so they hold in particular for the real square root.
The numpy random generator is modelled by an abstract deterministic
state-passing generator `Rng` (state type `ℕ`), matching the fact that
after `np.random.seed(s)` the global stream is a pure function of `s`.
-/

/-- Python exception classes raised by the code paths modelled here. -/
inductive PyErr where
  | valueError
  | indexError
  | insufficientDataError
deriving DecidableEq

/-- Model of `np.sqrt` composed with the engines' `np.nan_to_num`
convention: nonnegative, positive on positive inputs, and 0 on
nonpositive inputs (where the float result would be `nan`, which the
source immediately replaces by 0). -/
structure SqrtOracle where
  sq : ℚ → ℚ
  nonneg : ∀ x, 0 ≤ sq x
  pos_of_pos : ∀ x, 0 < x → 0 < sq x
  zero_of_nonpos : ∀ x, x ≤ 0 → sq x = 0

/-- Model of numpy's global random generator: `seed` is `np.random.seed`,
`choice` draws an index (taken modulo the bound by the caller) and
advances the state, `gamma` is `np.random.gamma(shape, scale)`. -/
structure Rng where
  seed : ℕ → ℕ
  choice : ℕ → ℕ → ℕ × ℕ
  gamma : ℕ → ℚ → ℚ → ℚ × ℕ

/-- Row-major enumeration of the `n_origin × n_dev` grid, as produced by
the nested `for origin in range(n_origin): for dev in range(n_dev):`
loops of both engines. -/
def cellsRowMajor (nOrigin nDev : ℕ) : List (ℕ × ℕ) :=
  (List.range nOrigin).flatMap (fun i => (List.range nDev).map (fun j => (i, j)))

/-- Arithmetic mean of a list, `np.mean` on a nonempty array (the only
way the engines apply it to data that reaches an arithmetic result). -/
def listMean (l : List ℚ) : ℚ := l.sum / l.length

/-! ### Live engine (`bootstrap_engine.py`): `_prepare_residual_pool` -/

/-- Standardized Pearson residual of the live engine
(`bootstrap_engine.py` line 88): `(actual - fitted) / np.sqrt(np.abs(fitted))`,
after `np.nan_to_num` (line 89); for `fitted = 0` the float value is
non-finite and is replaced by 0, which the `sq 0 = 0` and `x / 0 = 0`
conventions reproduce. -/
def newStdResid (s : SqrtOracle) (actual fitted : ℕ → ℕ → ℚ) (i j : ℕ) : ℚ :=
  (actual i j - fitted i j) / s.sq |fitted i j|

/-- Cells admitted to the live engine's residual pool
(`bootstrap_engine.py` lines 99-113): observed upper-triangle cells
(`origin + dev < n_origin`) with strictly positive fitted value and
nonzero (hence, post-`nan_to_num`, finite) standardized residual. -/
def newPoolCells (s : SqrtOracle) (actual fitted : ℕ → ℕ → ℚ) (nOrigin nDev : ℕ) :
    List (ℕ × ℕ) :=
  (cellsRowMajor nOrigin nDev).filter (fun ij =>
    decide (ij.1 + ij.2 < nOrigin) && decide (0 < fitted ij.1 ij.2) &&
      decide (newStdResid s actual fitted ij.1 ij.2 ≠ 0))

/-- Entry of the live engine's residual pool: the dict with keys
`origin`, `dev`, `standardized_residual`, `adjusted_residual`. -/
structure NewEntry where
  origin : ℕ
  dev : ℕ
  standardized_residual : ℚ
  adjusted_residual : ℚ
deriving DecidableEq

/-- Residual pool of the live engine (`bootstrap_engine.py`
`_prepare_residual_pool`, lines 95-130): collect the admissible cells,
and if any exist, set each entry's `adjusted_residual` to its
standardized residual minus the mean of all standardized residuals
(lines 120-127); an empty collection yields an empty pool (lines 115-118). -/
def newResidualPool (s : SqrtOracle) (actual fitted : ℕ → ℕ → ℚ) (nOrigin nDev : ℕ) :
    List NewEntry :=
  let cells := newPoolCells s actual fitted nOrigin nDev
  if cells = [] then []
  else
    let m := listMean (cells.map (fun ij => newStdResid s actual fitted ij.1 ij.2))
    cells.map (fun ij =>
      { origin := ij.1
        dev := ij.2
        standardized_residual := newStdResid s actual fitted ij.1 ij.2
        adjusted_residual := newStdResid s actual fitted ij.1 ij.2 - m })

/-! ### Legacy engine (`bootstrap_engine_old.py`): `_calculate_residuals` -/

/-- Standardized Pearson residual of the legacy engine
(`bootstrap_engine_old.py` line 90): `(actual - fitted) / np.sqrt(fitted)`
followed by `np.nan_to_num` (line 91); for `fitted ≤ 0` the float value
is non-finite and is replaced by 0, reproduced by `sq fitted = 0` there
and `x / 0 = 0`. -/
def oldStdResid (s : SqrtOracle) (actual fitted : ℕ → ℕ → ℚ) (i j : ℕ) : ℚ :=
  (actual i j - fitted i j) / s.sq (fitted i j)

/-- Cells admitted to the legacy engine's residual pool
(`bootstrap_engine_old.py` line 102): observed upper-triangle cells with
strictly positive fitted value and nonzero post-`nan_to_num` residual. -/
def oldPoolCells (s : SqrtOracle) (actual fitted : ℕ → ℕ → ℚ) (nOrigin nDev : ℕ) :
    List (ℕ × ℕ) :=
  (cellsRowMajor nOrigin nDev).filter (fun ij =>
    decide (ij.1 + ij.2 < nOrigin) && decide (0 < fitted ij.1 ij.2) &&
      decide (oldStdResid s actual fitted ij.1 ij.2 ≠ 0))

/-- Entry of the legacy engine's residual pool: the dict with keys
`origin`, `dev`, `residual`, `fitted`, `adjusted_residual`. -/
structure OldEntry where
  origin : ℕ
  dev : ℕ
  residual : ℚ
  fitted : ℚ
  adjusted_residual : ℚ
deriving DecidableEq

/-- Degrees of freedom of the legacy engine (`bootstrap_engine_old.py`
lines 111-113): `n = len(self.residual_pool)`, `p = n_dev - 1`,
`self.df = max(n - p, 1)` over Python integers. -/
def oldDf (n nDev : ℕ) : ℤ := max ((n : ℤ) - ((nDev : ℤ) - 1)) 1

/-- Degrees-of-freedom adjustment factor of the legacy engine
(`bootstrap_engine_old.py` line 116): `np.sqrt(n / self.df)`. -/
def oldAdjustment (s : SqrtOracle) (n nDev : ℕ) : ℚ :=
  s.sq ((n : ℚ) / ((oldDf n nDev : ℤ) : ℚ))

/-- Legacy residual pool after the degrees-of-freedom scaling but before
mean-centering (`bootstrap_engine_old.py` lines 98-118): each entry holds
the raw standardized residual and `adjusted_residual = residual * sqrt(n/df)`. -/
def oldPoolPre (s : SqrtOracle) (actual fitted : ℕ → ℕ → ℚ) (nOrigin nDev : ℕ) :
    List OldEntry :=
  let cells := oldPoolCells s actual fitted nOrigin nDev
  cells.map (fun ij =>
    { origin := ij.1
      dev := ij.2
      residual := oldStdResid s actual fitted ij.1 ij.2
      fitted := fitted ij.1 ij.2
      adjusted_residual :=
        oldStdResid s actual fitted ij.1 ij.2 * oldAdjustment s cells.length nDev })

/-- Legacy residual pool after centering (`bootstrap_engine_old.py`
lines 120-124): subtract the mean of the adjusted residuals from each. -/
def oldPool (s : SqrtOracle) (actual fitted : ℕ → ℕ → ℚ) (nOrigin nDev : ℕ) :
    List OldEntry :=
  let pre := oldPoolPre s actual fitted nOrigin nDev
  let m := listMean (pre.map OldEntry.adjusted_residual)
  pre.map (fun e => { e with adjusted_residual := e.adjusted_residual - m })

/-- Scale parameter phi of the legacy engine (`bootstrap_engine_old.py`
lines 128-129): `sum(residual**2) / df`. -/
def oldScaleParam (s : SqrtOracle) (actual fitted : ℕ → ℕ → ℚ) (nOrigin nDev : ℕ) : ℚ :=
  ((oldPoolPre s actual fitted nOrigin nDev).map (fun e => e.residual ^ 2)).sum /
    ((oldDf (oldPoolCells s actual fitted nOrigin nDev).length nDev : ℤ) : ℚ)

/-! ### Legacy engine: `run_single_iteration` -/

/-- Engine instance state read by `run_single_iteration` of the legacy
engine: triangle dimensions, `random_state`, the fitted incremental
triangle, the residual pool, and the scale parameter. -/
structure OldEngine where
  nOrigin : ℕ
  nDev : ℕ
  randomState : ℕ
  fitted : ℕ → ℕ → ℚ
  pool : List OldEntry
  scaleParameter : ℚ

/-- One `sampling_details` dict of the legacy engine
(`bootstrap_engine_old.py` lines 170-179). -/
structure SampleRecord where
  origin : ℕ
  dev : ℕ
  fitted : ℚ
  sampled_residual : ℚ
  sampled_from_origin : ℕ
  sampled_from_dev : ℕ
  bootstrap_value : ℚ
  sequence : ℕ
deriving DecidableEq

/-- Model of `np.random.choice(n)` on the global generator state: raises
`ValueError` when `n = 0` (numpy: a must be greater than 0), otherwise
returns an index below `n` and the advanced state. -/
def npChoice (rng : Rng) (st n : ℕ) : Except PyErr (ℕ × ℕ) :=
  if n = 0 then .error .valueError
  else
    let d := rng.choice st n
    .ok (d.1 % n, d.2)

/-- Sampling loop of `run_single_iteration` (`bootstrap_engine_old.py`
lines 156-179): for each grid cell in row-major order, if the cell is
observed (`i + j < n_origin`) and its fitted value is positive, draw a
pool index with `np.random.choice(len(pool))`, read the drawn entry's
adjusted residual, clamp `fitted + r * sqrt(fitted)` at 0, and append a
`SampleRecord` whose `sequence` is the number of earlier records. -/
def sampleLoop (rng : Rng) (s : SqrtOracle) (eng : OldEngine) :
    List (ℕ × ℕ) → List SampleRecord → ℕ → Except PyErr (List SampleRecord × ℕ)
  | [], acc, st => .ok (acc, st)
  | (i, j) :: rest, acc, st =>
    if i + j < eng.nOrigin ∧ 0 < eng.fitted i j then
      match npChoice rng st eng.pool.length with
      | .error e => .error e
      | .ok (idx, st') =>
        let ent := eng.pool.getD idx ⟨0, 0, 0, 0, 0⟩
        let r := ent.adjusted_residual
        let bv := max 0 (eng.fitted i j + r * s.sq (eng.fitted i j))
        let record : SampleRecord :=
          { origin := i
            dev := j
            fitted := eng.fitted i j
            sampled_residual := r
            sampled_from_origin := ent.origin
            sampled_from_dev := ent.dev
            bootstrap_value := bv
            sequence := acc.length }
        sampleLoop rng s eng rest (acc ++ [record]) st'
    else sampleLoop rng s eng rest acc st

/-- The `bootstrap_incremental` array built by the sampling loop: the
`np.zeros((n_origin, n_dev))` array into which each record's
`bootstrap_value` was assigned at its cell (`bootstrap_engine_old.py`
lines 152 and 167); cells never assigned stay 0. -/
def recordsValue (records : List SampleRecord) (i j : ℕ) : ℚ :=
  match records.find? (fun r => r.origin == i && r.dev == j) with
  | some r => r.bootstrap_value
  | none => 0

/-- Cumulative sum along the development axis within an origin row,
`np.cumsum(_, axis=1)` (`bootstrap_engine_old.py` line 182). -/
def cumsumRow (f : ℕ → ℕ → ℚ) (i j : ℕ) : ℚ :=
  ∑ k ∈ Finset.range (j + 1), f i k

/-- Row-wise difference with a prepended zero, `np.diff(_, axis=1,
prepend=0)` (`bootstrap_engine_old.py` line 194). -/
def diffRow (f : ℕ → ℕ → ℚ) (i j : ℕ) : ℚ :=
  if j = 0 then f i 0 else f i j - f i (j - 1)

/-- Model of the external chainladder model used inside an iteration:
`cl.Chainladder().fit(tri).full_triangle_` is a deterministic function
of the cumulative triangle, with `fullDev` development columns. -/
structure ExtModel where
  fullDev : ℕ
  fullTriangle : (ℕ → ℕ → ℚ) → ℕ → ℕ → ℚ

/-- Future cells visited by the reserve loop (`bootstrap_engine_old.py`
lines 198-202): for each origin `i`, development indices `j` with
`latest_dev_idx < j < fullDev` where `latest_dev_idx = n_origin - i - 1`. -/
def futureCells (nOrigin fullDev : ℕ) : List (ℕ × ℕ) :=
  (List.range nOrigin).flatMap (fun i =>
    ((List.range fullDev).filter (fun j => decide (nOrigin - i - 1 < j))).map
      (fun j => (i, j)))

/-- Reserve accumulation loop of the legacy engine
(`bootstrap_engine_old.py` lines 197-213): for each future cell with
positive expected incremental payment, draw
`np.random.gamma(expected / phi, phi)` and add it to the reserve. -/
def reserveLoop (rng : Rng) (phi : ℚ) (fullIncr : ℕ → ℕ → ℚ) :
    List (ℕ × ℕ) → ℚ → ℕ → ℚ × ℕ
  | [], acc, st => (acc, st)
  | (i, j) :: rest, acc, st =>
    if 0 < fullIncr i j then
      let sh := fullIncr i j / phi
      let d := rng.gamma st sh phi
      reserveLoop rng phi fullIncr rest (acc + d.1) d.2
    else reserveLoop rng phi fullIncr rest acc st

/-- Result dict of `run_single_iteration` (`bootstrap_engine_old.py`
lines 215-221). -/
structure IterationResult where
  iteration : ℕ
  sampling_details : List SampleRecord
  bootstrap_incremental : ℕ → ℕ → ℚ
  bootstrap_cumulative : ℕ → ℕ → ℚ
  reserve_estimate : ℚ

/-- The legacy engine's `run_single_iteration(iteration_num)`
(`bootstrap_engine_old.py` lines 131-226).  The argument `g` is the
state of numpy's global generator when the call starts; the first
statement `np.random.seed(self.random_state + iteration_num)` replaces
it, after which the sampling loop, the external re-fit, the
`np.diff`/`np.cumsum` transforms and the Gamma reserve loop run. -/
def oldRunSingleIteration (rng : Rng) (ext : ExtModel) (s : SqrtOracle)
    (eng : OldEngine) (iterationNum : ℕ) (g : ℕ) : Except PyErr IterationResult :=
  let _ := g
  let st0 := rng.seed (eng.randomState + iterationNum)
  match sampleLoop rng s eng (cellsRowMajor eng.nOrigin eng.nDev) [] st0 with
  | .error e => .error e
  | .ok (records, st1) =>
    let bi := recordsValue records
    let bc := cumsumRow bi
    let full := ext.fullTriangle bc
    let fullIncr := diffRow full
    let res :=
      reserveLoop rng eng.scaleParameter fullIncr
        (futureCells eng.nOrigin ext.fullDev) 0 st1
    .ok { iteration := iterationNum
          sampling_details := records
          bootstrap_incremental := bi
          bootstrap_cumulative := bc
          reserve_estimate := res.1 }

/-! ### Live engine: `run_bootstrap` reserve computation and summary -/

/-- Model of the external chainladder collaborators consumed by the live
engine's `run_bootstrap` (`bootstrap_engine.py` lines 163-186):
`BootstrapODPSample` resampling and the per-iteration `Chainladder`
re-fit are deterministic in `random_state`, so iteration `i`'s ultimate
and latest-diagonal vectors are functions of `i` and the origin index. -/
structure ClExternal where
  nOrigin : ℕ
  ultimate : ℕ → ℕ → ℚ
  latest : ℕ → ℕ → ℚ

/-- Reserve recorded for iteration `i` by the live engine
(`bootstrap_engine.py` lines 184-187): `ultimate.sum() - latest.sum()`
over the iteration's re-fitted model and resampled triangle. -/
def newIterReserve (ext : ClExternal) (i : ℕ) : ℚ :=
  (∑ o ∈ Finset.range ext.nOrigin, ext.ultimate i o) -
    ∑ o ∈ Finset.range ext.nOrigin, ext.latest i o

/-- The `reserve_estimates` list accumulated by the live engine's
`run_bootstrap` loop (`bootstrap_engine.py` lines 179-189). -/
def newReserveEstimates (ext : ClExternal) (nIterations : ℕ) : List ℚ :=
  (List.range nIterations).map (newIterReserve ext)

/-- Model of `np.mean`: `nan` on an empty array (no exception raised),
rendered as `none`. -/
def npMean (l : List ℚ) : Option ℚ :=
  if l.isEmpty then none else some (listMean l)

/-- Model of `np.std` (population standard deviation): `nan` on an empty
array, rendered as `none`. -/
def npStd (s : SqrtOracle) (l : List ℚ) : Option ℚ :=
  if l.isEmpty then none
  else some (s.sq (((l.map (fun x => (x - listMean l) ^ 2)).sum) / l.length))

/-- Model of `np.min`: raises `ValueError` on an empty array
(zero-size array to reduction operation minimum which has no identity). -/
def npMin (l : List ℚ) : Except PyErr ℚ :=
  match l with
  | [] => .error .valueError
  | x :: xs => .ok (xs.foldl min x)

/-- Model of `np.max`: raises `ValueError` on an empty array. -/
def npMax (l : List ℚ) : Except PyErr ℚ :=
  match l with
  | [] => .error .valueError
  | x :: xs => .ok (xs.foldl max x)

/-- Model of `np.percentile` with the default linear interpolation:
raises `IndexError` on an empty array (cannot do a non-empty take from
an empty axes); otherwise interpolates between the order statistics at
positions floor and ceiling of `q * (n - 1) / 100`. -/
def npPercentile (l : List ℚ) (q : ℚ) : Except PyErr ℚ :=
  match l with
  | [] => .error .indexError
  | x :: xs =>
    let sorted := (x :: xs).mergeSort (fun a b => decide (a ≤ b))
    let n := (x :: xs).length
    let pos : ℚ := q * ((n : ℚ) - 1) / 100
    let lo : ℕ := pos.floor.toNat
    let hi : ℕ := pos.ceil.toNat
    let vlo := sorted.getD lo x
    let vhi := sorted.getD hi x
    .ok (vlo + (pos - (lo : ℚ)) * (vhi - vlo))

/-- The summary dict returned by the live engine's `run_bootstrap`
(`bootstrap_engine.py` lines 234-248). -/
structure BootstrapSummary where
  n_iterations : ℕ
  reserve_estimates : List ℚ
  mean : Option ℚ
  std : Option ℚ
  min : ℚ
  max : ℚ
  p5 : ℚ
  p25 : ℚ
  p50 : ℚ
  p75 : ℚ
  p95 : ℚ

/-- The live engine's `run_bootstrap(n_iterations)` summary construction
(`bootstrap_engine.py` lines 232-248): collect the reserve estimates and
build the summary dict; `np.mean`/`np.std` of an empty array produce
`nan` silently, while `np.min` (evaluated next in the dict literal)
raises `ValueError` when the array is empty. -/
def newRunBootstrap (s : SqrtOracle) (ext : ClExternal) (nIterations : ℕ) :
    Except PyErr BootstrapSummary := do
  let reserves := newReserveEstimates ext nIterations
  let mn ← npMin reserves
  let mx ← npMax reserves
  let q5 ← npPercentile reserves 5
  let q25 ← npPercentile reserves 25
  let q50 ← npPercentile reserves 50
  let q75 ← npPercentile reserves 75
  let q95 ← npPercentile reserves 95
  return { n_iterations := nIterations
           reserve_estimates := reserves
           mean := npMean reserves
           std := npStd s reserves
           min := mn
           max := mx
           p5 := q5
           p25 := q25
           p50 := q50
           p75 := q75
           p95 := q95 }

/-! ### Concrete instances for evaluating the definitions -/

/-- Concrete square-root oracle exact on the rational points the test
data uses: value 2 at 4, value 1 at any other positive input, 0 on
nonpositive inputs. -/
def sqC : SqrtOracle where
  sq := fun x => if x ≤ 0 then 0 else if x = 4 then 2 else 1
  nonneg := by
    intro x
    dsimp only
    split_ifs <;> norm_num
  pos_of_pos := by
    intro x hx
    dsimp only
    rw [if_neg (not_le.mpr hx)]
    split_ifs <;> norm_num
  zero_of_nonpos := by
    intro x hx
    dsimp only
    rw [if_pos hx]

/-- Concrete deterministic generator: seeding stores the seed, `choice`
returns the state as the draw and increments, `gamma` returns the
distribution mean `shape * scale`. -/
def rngC : Rng where
  seed := fun n => n
  choice := fun st _ => (st, st + 1)
  gamma := fun st sh sc => (sh * sc, st + 1)

/-- Concrete external model: the identity projection with two
development columns. -/
def extC : ExtModel where
  fullDev := 2
  fullTriangle := fun t => t

/-- Concrete 2x2 legacy engine with a one-entry residual pool. -/
def engC : OldEngine where
  nOrigin := 2
  nDev := 2
  randomState := 0
  fitted := fun _ _ => 1
  pool := [⟨0, 0, 1, 1, (1 : ℚ) / 2⟩]
  scaleParameter := 1

/-- Concrete 2x2 legacy engine whose residual pool is empty. -/
def engEmpty : OldEngine where
  nOrigin := 2
  nDev := 2
  randomState := 0
  fitted := fun _ _ => 1
  pool := []
  scaleParameter := 1

/-- Concrete 4x4 actual incremental triangle: value 2 on the four cells
with both indices at most 1, value 1 elsewhere. -/
def actualC : ℕ → ℕ → ℚ := fun i j => if i ≤ 1 ∧ j ≤ 1 then 2 else 1

/-- Concrete 4x4 fitted incremental triangle: constant 1, so exactly the
four cells where `actualC` is 2 give a nonzero residual. -/
def fittedC : ℕ → ℕ → ℚ := fun _ _ => 1

/-! ### Helper lemmas -/

lemma mem_cellsRowMajor (nOrigin nDev i j : ℕ) :
    (i, j) ∈ cellsRowMajor nOrigin nDev ↔ i < nOrigin ∧ j < nDev := by
  simp only [cellsRowMajor, List.mem_flatMap, List.mem_map, List.mem_range,
    Prod.mk.injEq]
  constructor
  · rintro ⟨a, ha, b, hb, rfl, rfl⟩
    exact ⟨ha, hb⟩
  · rintro ⟨hi, hj⟩
    exact ⟨i, hi, j, hj, rfl, rfl⟩

lemma mem_newPoolCells (s : SqrtOracle) (actual fitted : ℕ → ℕ → ℚ)
    (nOrigin nDev i j : ℕ) :
    (i, j) ∈ newPoolCells s actual fitted nOrigin nDev ↔
      j < nDev ∧ i + j < nOrigin ∧ 0 < fitted i j ∧
        newStdResid s actual fitted i j ≠ 0 := by
  simp only [newPoolCells, List.mem_filter, mem_cellsRowMajor,
    Bool.and_eq_true, decide_eq_true_eq]
  constructor
  · rintro ⟨⟨hi, hj⟩, ⟨hobs, hfit⟩, hres⟩
    exact ⟨hj, hobs, hfit, hres⟩
  · rintro ⟨hj, hobs, hfit, hres⟩
    exact ⟨⟨lt_of_le_of_lt (Nat.le_add_right i j) hobs, hj⟩, ⟨hobs, hfit⟩, hres⟩

lemma sum_map_sub_const {α : Type} (l : List α) (g : α → ℚ) (c : ℚ) :
    (l.map (fun x => g x - c)).sum = (l.map g).sum - l.length * c := by
  induction l with
  | nil => simp
  | cons a t ih =>
    simp only [List.map_cons, List.sum_cons, List.length_cons, ih]
    push_cast
    ring

/-! ### C1: the adjusted residuals of the pool are centered to mean zero -/

/-- C1: on any actual/fitted incremental triangle pair whose residual
pool is nonempty, the mean of the `adjusted_residual` values over the
whole pool is exactly 0: `_prepare_residual_pool` subtracts the mean of
the standardized residuals from each entry (`bootstrap_engine.py` lines
120-127), and in exact arithmetic the centered values sum to zero. -/
theorem newResidualPool_mean_adjusted_zero (s : SqrtOracle)
    (actual fitted : ℕ → ℕ → ℚ) (nOrigin nDev : ℕ)
    (h : newResidualPool s actual fitted nOrigin nDev ≠ []) :
    listMean ((newResidualPool s actual fitted nOrigin nDev).map
      NewEntry.adjusted_residual) = 0 := by
  by_cases hc : newPoolCells s actual fitted nOrigin nDev = []
  · exfalso
    apply h
    unfold newResidualPool
    rw [if_pos hc]
  · have hlen : ((newPoolCells s actual fitted nOrigin nDev).length : ℚ) ≠ 0 := by
      simp only [ne_eq, Nat.cast_eq_zero, List.length_eq_zero]
      exact hc
    unfold newResidualPool
    rw [if_neg hc]
    simp only [List.map_map, Function.comp_def]
    rw [listMean, sum_map_sub_const, List.length_map]
    rw [listMean, List.length_map]
    rw [mul_div_cancel₀ _ hlen]
    simp

/-- Witness for C1: the concrete 4x4 triangle pair has a nonempty pool,
and its adjusted residuals average to 0. -/
theorem newResidualPool_mean_adjusted_zero_witness :
    newResidualPool sqC actualC fittedC 4 4 ≠ [] ∧
      listMean ((newResidualPool sqC actualC fittedC 4 4).map
        NewEntry.adjusted_residual) = 0 := by
  have hne : newResidualPool sqC actualC fittedC 4 4 ≠ [] :=
    of_decide_eq_true (by with_unfolding_all rfl)
  exact ⟨hne, newResidualPool_mean_adjusted_zero sqC actualC fittedC 4 4 hne⟩

/-! ### C2: degrees-of-freedom scaling of the standardized residuals -/

/-- C2 counterexample: in the live engine (`bootstrap_engine.py`
`_prepare_residual_pool`) no degrees-of-freedom scaling is applied: the
value that gets centered is the standardized residual itself.  On the
concrete 4x4 triangle pair the pool has n = 4 entries and df =
max(4 - 3, 1) = 1, so the claimed factor is sqrt(4/1) = 2 (and `sqC`
computes the genuine square root of 4); each entry's pre-centering
adjusted residual (its standardized residual, value 1) differs from
standardized times sqrt(n/df) (value 2). -/
theorem newPool_no_dof_scaling_cex :
    (⟨0, 0, 1, 0⟩ : NewEntry) ∈ newResidualPool sqC actualC fittedC 4 4 ∧
      (⟨0, 0, 1, 0⟩ : NewEntry).standardized_residual ≠
        (⟨0, 0, 1, 0⟩ : NewEntry).standardized_residual *
          sqC.sq (((newPoolCells sqC actualC fittedC 4 4).length : ℚ) /
            ((oldDf (newPoolCells sqC actualC fittedC 4 4).length 4 : ℤ) : ℚ)) :=
  ⟨of_decide_eq_true (by with_unfolding_all rfl),
    of_decide_eq_true (by with_unfolding_all rfl)⟩

/-- C2 amended: in the legacy engine (`bootstrap_engine_old.py`
`_calculate_residuals`, lines 110-118) every pool entry's adjusted
residual before mean-centering equals its standardized residual times
`sqrt(n / df)` with `n` the pool size and `df = max(n - (nDev - 1), 1)`;
the live engine applies no such scaling. -/
theorem oldPoolPre_adjusted_eq_scaled (s : SqrtOracle)
    (actual fitted : ℕ → ℕ → ℚ) (nOrigin nDev : ℕ) (e : OldEntry)
    (he : e ∈ oldPoolPre s actual fitted nOrigin nDev) :
    e.adjusted_residual = e.residual *
      s.sq (((oldPoolCells s actual fitted nOrigin nDev).length : ℚ) /
        ((oldDf (oldPoolCells s actual fitted nOrigin nDev).length nDev : ℤ) : ℚ)) := by
  unfold oldPoolPre at he
  simp only [List.mem_map] at he
  obtain ⟨ij, _, rfl⟩ := he
  rfl

/-- Witness for C2's amended theorem: a concrete legacy pool entry with
standardized residual 1 and pre-centering adjusted residual
1 * sqrt(4/1) = 2. -/
theorem oldPoolPre_adjusted_eq_scaled_witness :
    (⟨0, 0, 1, 1, 2⟩ : OldEntry) ∈ oldPoolPre sqC actualC fittedC 4 4 ∧
      (⟨0, 0, 1, 1, 2⟩ : OldEntry).adjusted_residual =
        (⟨0, 0, 1, 1, 2⟩ : OldEntry).residual *
          sqC.sq (((oldPoolCells sqC actualC fittedC 4 4).length : ℚ) /
            ((oldDf (oldPoolCells sqC actualC fittedC 4 4).length 4 : ℤ) : ℚ)) := by
  have hm : (⟨0, 0, 1, 1, 2⟩ : OldEntry) ∈ oldPoolPre sqC actualC fittedC 4 4 :=
    of_decide_eq_true (by with_unfolding_all rfl)
  exact ⟨hm, oldPoolPre_adjusted_eq_scaled sqC actualC fittedC 4 4 _ hm⟩

/-! ### C3: degrees-of-freedom formula and floor -/

/-- C3: the degrees of freedom used for residual adjustment equal
`max(n - p, 1)` with `p = nDev - 1` (`bootstrap_engine_old.py` lines
111-113), are always at least 1, and equal exactly 1 in the degenerate
case `n ≤ p`. -/
theorem oldDf_formula_and_floor (n nDev : ℕ) :
    oldDf n nDev = max ((n : ℤ) - ((nDev : ℤ) - 1)) 1 ∧ 1 ≤ oldDf n nDev ∧
      ((n : ℤ) ≤ (nDev : ℤ) - 1 → oldDf n nDev = 1) := by
  refine ⟨rfl, le_max_right _ _, fun h => ?_⟩
  unfold oldDf
  omega

/-- Witness for C3 at the degenerate input n = 1, nDev = 3 (n ≤ p): the
floor applies and df = 1 ≥ 1. -/
theorem oldDf_formula_and_floor_witness : oldDf 1 3 = 1 ∧ 1 ≤ oldDf 1 3 :=
  ⟨(oldDf_formula_and_floor 1 3).2.2 (by norm_num),
    (oldDf_formula_and_floor 1 3).2.1⟩

/-! ### C5: per-iteration reserve is ultimate minus latest, summed over origins -/

/-- C5: every reserve estimate recorded by the live engine's
`run_bootstrap` loop (`bootstrap_engine.py` lines 179-189) equals the
sum over origin periods of (projected ultimate minus latest observed
cumulative) for that iteration's re-fitted model: the code computes
`ultimate.sum() - latest.sum()`, which equals the origin-wise sum of
differences. -/
theorem newReserveEstimates_ultimate_sub_latest (ext : ClExternal) (nIterations : ℕ) :
    newReserveEstimates ext nIterations =
      (List.range nIterations).map (fun i =>
        ∑ o ∈ Finset.range ext.nOrigin, (ext.ultimate i o - ext.latest i o)) := by
  unfold newReserveEstimates newIterReserve
  simp [Finset.sum_sub_distrib]

/-! ### C6: zero iterations crash the summary construction -/

/-- C6: `run_bootstrap(n_iterations=0)` does not return an empty
summary; with an empty reserve array, `np.mean`/`np.std` produce `nan`
silently but `np.min` (line 239 of `bootstrap_engine.py`) raises
`ValueError`, so the call raises instead of returning. -/
theorem newRunBootstrap_zero_iterations_raises (s : SqrtOracle) (ext : ClExternal) :
    newRunBootstrap s ext 0 = Except.error PyErr.valueError := by
  with_unfolding_all rfl

/-! ### C8: an iteration is a pure function of engine state and index -/

/-- C8: `run_single_iteration` begins with
`np.random.seed(self.random_state + iteration_num)`
(`bootstrap_engine_old.py` line 142), so its outcome does not depend on
the incoming global generator state: two calls with the same engine
state and iteration index produce identical SampleRecord sequences,
synthetic triangles, and reserve estimates. -/
theorem oldRunSingleIteration_deterministic (rng : Rng) (ext : ExtModel)
    (s : SqrtOracle) (eng : OldEngine) (iterationNum : ℕ) (g1 g2 : ℕ) :
    oldRunSingleIteration rng ext s eng iterationNum g1 =
      oldRunSingleIteration rng ext s eng iterationNum g2 := rfl

/-! ### C10: residual pool membership characterization -/

/-- C10: a cell contributes an entry to the live engine's residual pool
if and only if it lies in the loop ranges, is observed
(`i + j < n_origin`), has strictly positive fitted value, and has
nonzero post-`nan_to_num` standardized residual (`bootstrap_engine.py`
lines 99-113); cells with `actual = fitted` have residual 0 and are
excluded, and residuals that float arithmetic makes non-finite are
zeroed by `nan_to_num` and thereby excluded too. -/
theorem newResidualPool_mem_iff (s : SqrtOracle) (actual fitted : ℕ → ℕ → ℚ)
    (nOrigin nDev i j : ℕ) :
    (∃ e ∈ newResidualPool s actual fitted nOrigin nDev,
        e.origin = i ∧ e.dev = j) ↔
      j < nDev ∧ i + j < nOrigin ∧ 0 < fitted i j ∧
        newStdResid s actual fitted i j ≠ 0 := by
  constructor
  · rintro ⟨e, he, hi, hj⟩
    unfold newResidualPool at he
    by_cases hc : newPoolCells s actual fitted nOrigin nDev = []
    · rw [if_pos hc] at he
      cases he
    · rw [if_neg hc] at he
      simp only [List.mem_map] at he
      obtain ⟨⟨a, b⟩, hab, rfl⟩ := he
      simp only at hi hj
      subst hi
      subst hj
      exact (mem_newPoolCells s actual fitted nOrigin nDev a b).mp hab
  · rintro ⟨hj, hobs, hfit, hres⟩
    have hmem : (i, j) ∈ newPoolCells s actual fitted nOrigin nDev :=
      (mem_newPoolCells s actual fitted nOrigin nDev i j).mpr ⟨hj, hobs, hfit, hres⟩
    have hc : newPoolCells s actual fitted nOrigin nDev ≠ [] := by
      intro hh
      rw [hh] at hmem
      cases hmem
    refine ⟨{ origin := i, dev := j
              standardized_residual := newStdResid s actual fitted i j
              adjusted_residual := newStdResid s actual fitted i j -
                listMean ((newPoolCells s actual fitted nOrigin nDev).map
                  (fun ij => newStdResid s actual fitted ij.1 ij.2)) },
      ?_, rfl, rfl⟩
    unfold newResidualPool
    rw [if_neg hc]
    exact List.mem_map.mpr ⟨(i, j), hmem, rfl⟩

/-- Witness for C10: cell (0, 1) of the concrete triangle pair satisfies
the membership conditions and indeed appears in the pool. -/
theorem newResidualPool_mem_iff_witness :
    ∃ e ∈ newResidualPool sqC actualC fittedC 4 4, e.origin = 0 ∧ e.dev = 1 :=
  (newResidualPool_mem_iff sqC actualC fittedC 4 4 0 1).mpr
    (of_decide_eq_true (by with_unfolding_all rfl))

/-! ### Sampling-loop invariants -/

lemma sampleLoop_invariant (rng : Rng) (s : SqrtOracle) (eng : OldEngine) :
    ∀ (cells : List (ℕ × ℕ)) (acc : List SampleRecord) (st : ℕ)
      (out : List SampleRecord × ℕ),
      sampleLoop rng s eng cells acc st = Except.ok out →
      ∀ r ∈ out.1, r ∈ acc ∨
        ((r.origin, r.dev) ∈ cells ∧ r.fitted = eng.fitted r.origin r.dev ∧
          r.bootstrap_value =
            max 0 (r.fitted + r.sampled_residual * s.sq r.fitted)) := by
  intro cells
  induction cells with
  | nil =>
    intro acc st out h r hr
    rw [sampleLoop] at h
    injection h with h
    rw [← h] at hr
    exact Or.inl hr
  | cons ij rest ih =>
    obtain ⟨i, j⟩ := ij
    intro acc st out h r hr
    rw [sampleLoop] at h
    by_cases hcond : i + j < eng.nOrigin ∧ 0 < eng.fitted i j
    · rw [if_pos hcond] at h
      cases hch : npChoice rng st eng.pool.length with
      | error e =>
        rw [hch] at h
        exact absurd h (by simp)
      | ok p =>
        rw [hch] at h
        obtain ⟨idx, st2⟩ := p
        rcases ih _ _ _ h r hr with hacc | ⟨hcell, hfit, hbv⟩
        · rcases List.mem_append.mp hacc with h1 | h2
          · exact Or.inl h1
          · have hrec := List.mem_singleton.mp h2
            subst hrec
            exact Or.inr ⟨List.mem_cons_self _ _, rfl, rfl⟩
        · exact Or.inr ⟨List.mem_cons_of_mem _ hcell, hfit, hbv⟩
    · rw [if_neg hcond] at h
      rcases ih _ _ _ h r hr with hacc | ⟨hcell, hfit, hbv⟩
      · exact Or.inl hacc
      · exact Or.inr ⟨List.mem_cons_of_mem _ hcell, hfit, hbv⟩

lemma oldRunSingleIteration_ok_destruct (rng : Rng) (ext : ExtModel)
    (s : SqrtOracle) (eng : OldEngine) (iterationNum g : ℕ)
    (res : IterationResult)
    (h : oldRunSingleIteration rng ext s eng iterationNum g = Except.ok res) :
    ∃ st1, sampleLoop rng s eng (cellsRowMajor eng.nOrigin eng.nDev) []
        (rng.seed (eng.randomState + iterationNum)) =
        Except.ok (res.sampling_details, st1) ∧
      res.bootstrap_incremental = recordsValue res.sampling_details ∧
      res.bootstrap_cumulative = cumsumRow (recordsValue res.sampling_details) := by
  simp only [oldRunSingleIteration] at h
  cases hsl : sampleLoop rng s eng (cellsRowMajor eng.nOrigin eng.nDev) []
      (rng.seed (eng.randomState + iterationNum)) with
  | error e =>
    rw [hsl] at h
    exact absurd h (by simp)
  | ok p =>
    rw [hsl] at h
    obtain ⟨records, st1⟩ := p
    injection h with h
    subst h
    exact ⟨st1, rfl, rfl, rfl⟩

/-! ### C4: bootstrap values are clamped at zero -/

/-- C4: every SampleRecord produced by `run_single_iteration`
(`bootstrap_engine_old.py` lines 156-179) records
`bootstrap_value = max(0, fitted + sampled_residual * sqrt(fitted))`
for its cell's fitted value and the drawn adjusted residual, hence every
recorded bootstrap value is nonnegative, for any residual pool contents
and any random draws. -/
theorem sampleRecord_bootstrapValue_clamped (rng : Rng) (ext : ExtModel)
    (s : SqrtOracle) (eng : OldEngine) (iterationNum g : ℕ)
    (res : IterationResult)
    (h : oldRunSingleIteration rng ext s eng iterationNum g = Except.ok res) :
    ∀ r ∈ res.sampling_details,
      r.bootstrap_value =
          max 0 (r.fitted + r.sampled_residual * s.sq r.fitted) ∧
        0 ≤ r.bootstrap_value := by
  obtain ⟨st1, hsl, -, -⟩ :=
    oldRunSingleIteration_ok_destruct rng ext s eng iterationNum g res h
  intro r hr
  rcases sampleLoop_invariant rng s eng _ _ _ _ hsl r hr with hacc | ⟨-, -, hbv⟩
  · cases hacc
  · exact ⟨hbv, hbv ▸ le_max_left _ _⟩

/-- Witness for C4: the concrete 2x2 engine run succeeds and all of its
records satisfy the clamped formula and nonnegativity. -/
theorem sampleRecord_bootstrapValue_clamped_witness :
    ∃ res, oldRunSingleIteration rngC extC sqC engC 1 0 = Except.ok res ∧
      ∀ r ∈ res.sampling_details,
        r.bootstrap_value =
            max 0 (r.fitted + r.sampled_residual * sqC.sq r.fitted) ∧
          0 ≤ r.bootstrap_value := by
  have hok : (oldRunSingleIteration rngC extC sqC engC 1 0).toOption.isSome = true := by
    with_unfolding_all rfl
  cases hr : oldRunSingleIteration rngC extC sqC engC 1 0 with
  | error e =>
    rw [hr] at hok
    simp [Except.toOption] at hok
  | ok res =>
    exact ⟨res, rfl,
      sampleRecord_bootstrapValue_clamped rngC extC sqC engC 1 0 res hr⟩

/-! ### Properties of the reconstructed incremental array -/

lemma recordsValue_nonneg (s : SqrtOracle) (records : List SampleRecord)
    (hall : ∀ r ∈ records,
      r.bootstrap_value = max 0 (r.fitted + r.sampled_residual * s.sq r.fitted))
    (i j : ℕ) : 0 ≤ recordsValue records i j := by
  unfold recordsValue
  cases hf : records.find? (fun r => r.origin == i && r.dev == j) with
  | none => exact le_refl 0
  | some r =>
    have hr : r ∈ records := List.mem_of_find?_eq_some hf
    show 0 ≤ r.bootstrap_value
    rw [hall r hr]
    exact le_max_left _ _

lemma recordsValue_eq_zero_outside (nOrigin nDev : ℕ)
    (records : List SampleRecord)
    (hall : ∀ r ∈ records, r.origin < nOrigin ∧ r.dev < nDev)
    (i j : ℕ) (hij : nOrigin ≤ i ∨ nDev ≤ j) : recordsValue records i j = 0 := by
  unfold recordsValue
  cases hf : records.find? (fun r => r.origin == i && r.dev == j) with
  | none => rfl
  | some r =>
    exfalso
    have hr : r ∈ records := List.mem_of_find?_eq_some hf
    have hp := List.find?_some hf
    simp only [Bool.and_eq_true, beq_iff_eq] at hp
    obtain ⟨hoi, hdj⟩ := hp
    rcases hij with hcase | hcase
    · exact absurd ((hall r hr).1) (by omega)
    · exact absurd ((hall r hr).2) (by omega)

/-! ### C9: synthetic cumulative triangle properties -/

/-- C9: for every successful iteration of the legacy engine, the
synthetic cumulative triangle equals the row-wise cumulative sum of the
synthetic incremental triangle along the development axis
(`bootstrap_engine_old.py` line 182), the incremental triangle vanishes
outside the source triangle's `n_origin × n_dev` shape (it is the
`np.zeros((n_origin, n_dev))` array only written inside the loop
ranges), and the cumulative values are non-decreasing along the
development axis in every origin row. -/
theorem syntheticCumulative_cumsum_shape_monotone (rng : Rng) (ext : ExtModel)
    (s : SqrtOracle) (eng : OldEngine) (iterationNum g : ℕ)
    (res : IterationResult)
    (h : oldRunSingleIteration rng ext s eng iterationNum g = Except.ok res) :
    (∀ i j, res.bootstrap_cumulative i j =
        ∑ k ∈ Finset.range (j + 1), res.bootstrap_incremental i k) ∧
      (∀ i j, eng.nOrigin ≤ i ∨ eng.nDev ≤ j →
        res.bootstrap_incremental i j = 0) ∧
      (∀ i j, res.bootstrap_cumulative i j ≤ res.bootstrap_cumulative i (j + 1)) := by
  obtain ⟨st1, hsl, hbi, hbc⟩ :=
    oldRunSingleIteration_ok_destruct rng ext s eng iterationNum g res h
  have hbv : ∀ r ∈ res.sampling_details,
      r.bootstrap_value = max 0 (r.fitted + r.sampled_residual * s.sq r.fitted) := by
    intro r hr
    rcases sampleLoop_invariant rng s eng _ _ _ _ hsl r hr with hacc | ⟨-, -, hb⟩
    · cases hacc
    · exact hb
  have hbounds : ∀ r ∈ res.sampling_details,
      r.origin < eng.nOrigin ∧ r.dev < eng.nDev := by
    intro r hr
    rcases sampleLoop_invariant rng s eng _ _ _ _ hsl r hr with hacc | ⟨hcell, -, -⟩
    · cases hacc
    · exact (mem_cellsRowMajor eng.nOrigin eng.nDev r.origin r.dev).mp hcell
  refine ⟨?_, ?_, ?_⟩
  · intro i j
    rw [hbc, hbi, cumsumRow]
  · intro i j hij
    rw [hbi]
    exact recordsValue_eq_zero_outside eng.nOrigin eng.nDev _ hbounds i j hij
  · intro i j
    rw [hbc, cumsumRow, cumsumRow, Finset.sum_range_succ _ (j + 1)]
    have := recordsValue_nonneg s res.sampling_details hbv i (j + 1)
    linarith

/-- Witness for C9: the concrete 2x2 engine run succeeds and its
synthetic triangles satisfy the cumulative-sum, shape and monotonicity
properties. -/
theorem syntheticCumulative_cumsum_shape_monotone_witness :
    ∃ res, oldRunSingleIteration rngC extC sqC engC 0 0 = Except.ok res ∧
      ((∀ i j, res.bootstrap_cumulative i j =
          ∑ k ∈ Finset.range (j + 1), res.bootstrap_incremental i k) ∧
        (∀ i j, engC.nOrigin ≤ i ∨ engC.nDev ≤ j →
          res.bootstrap_incremental i j = 0) ∧
        (∀ i j, res.bootstrap_cumulative i j ≤ res.bootstrap_cumulative i (j + 1))) := by
  have hok : (oldRunSingleIteration rngC extC sqC engC 0 0).toOption.isSome = true := by
    with_unfolding_all rfl
  cases hr : oldRunSingleIteration rngC extC sqC engC 0 0 with
  | error e =>
    rw [hr] at hok
    simp [Except.toOption] at hok
  | ok res =>
    exact ⟨res, rfl,
      syntheticCumulative_cumsum_shape_monotone rngC extC sqC engC 0 0 res hr⟩

/-! ### C7: sampling from an empty residual pool -/

lemma sampleLoop_empty_pool_error (rng : Rng) (s : SqrtOracle) (eng : OldEngine)
    (hpool : eng.pool = []) :
    ∀ (cells : List (ℕ × ℕ)) (acc : List SampleRecord) (st : ℕ),
      (∃ ij ∈ cells, ij.1 + ij.2 < eng.nOrigin ∧ 0 < eng.fitted ij.1 ij.2) →
      sampleLoop rng s eng cells acc st = Except.error PyErr.valueError := by
  intro cells
  induction cells with
  | nil =>
    intro acc st hex
    simp at hex
  | cons ij rest ih =>
    obtain ⟨i, j⟩ := ij
    intro acc st hex
    rw [sampleLoop]
    by_cases hcond : i + j < eng.nOrigin ∧ 0 < eng.fitted i j
    · rw [if_pos hcond]
      have hch : npChoice rng st eng.pool.length = Except.error PyErr.valueError := by
        rw [hpool]
        rfl
      rw [hch]
    · rw [if_neg hcond]
      apply ih
      obtain ⟨ij0, hij0, hq⟩ := hex
      rcases List.mem_cons.mp hij0 with heq | hmem
      · rw [heq] at hq
        exact absurd hq hcond
      · exact ⟨ij0, hmem, hq⟩

/-- C7 counterexample: on a concrete engine whose residual pool is
empty, the legacy engine's `run_single_iteration` fails — but with the
generic `ValueError` that `np.random.choice(0)` raises
(`bootstrap_engine_old.py` line 160), not with an
`InsufficientDataError`; no class of that name exists anywhere in the
repository. -/
theorem emptyPool_raises_generic_valueError_cex :
    oldRunSingleIteration rngC extC sqC engEmpty 0 0 =
        Except.error PyErr.valueError ∧
      PyErr.valueError ≠ PyErr.insufficientDataError :=
  ⟨by with_unfolding_all rfl, by simp⟩

/-- C7 amended: if the residual pool is empty and at least one observed
cell has positive fitted value (so that the sampling loop attempts a
draw), `run_single_iteration` raises the `ValueError` coming from
`np.random.choice` on a zero-size range, rather than dividing by zero or
silently producing a degenerate distribution. -/
theorem emptyPool_sampling_raises_valueError (rng : Rng) (ext : ExtModel)
    (s : SqrtOracle) (eng : OldEngine) (iterationNum g : ℕ)
    (hpool : eng.pool = [])
    (hcell : ∃ ij ∈ cellsRowMajor eng.nOrigin eng.nDev,
      ij.1 + ij.2 < eng.nOrigin ∧ 0 < eng.fitted ij.1 ij.2) :
    oldRunSingleIteration rng ext s eng iterationNum g =
      Except.error PyErr.valueError := by
  simp only [oldRunSingleIteration]
  rw [sampleLoop_empty_pool_error rng s eng hpool _ _ _ hcell]

/-- Witness for C7's amended theorem: the concrete empty-pool engine has
an observed cell with positive fitted value, and the iteration raises
`ValueError`. -/
theorem emptyPool_sampling_raises_valueError_witness :
    oldRunSingleIteration rngC extC sqC engEmpty 1 0 =
      Except.error PyErr.valueError :=
  emptyPool_sampling_raises_valueError rngC extC sqC engEmpty 1 0 rfl
    ⟨(0, 0), of_decide_eq_true (by with_unfolding_all rfl),
      of_decide_eq_true (by with_unfolding_all rfl),
      of_decide_eq_true (by with_unfolding_all rfl)⟩
